import Mathlib

/-!
Verification of the LeadScrapeMap repository (google_maps_scraper.py,
database.py) against its natural-language specification.

The Python sources are shallowly embedded: pure string helpers become Lean
functions on `String`/`List Char`; the Selenium-driven loops become functions
over an explicit environment (the sequence of DOM observations the browser
would yield); pandas `DataFrame` filtering becomes filtering of a `List Lead`;
Python `float` rating parsing is modelled over `ℚ` (restricted to the
sign/digits/decimal-point literal forms; no exponent, underscore, inf or nan
forms, which no rating string ever takes).
-/

set_option maxRecDepth 10000

namespace LeadScrapeMap

/-- One business record, mirroring the dict built by
`extract_business_details` in google_maps_scraper.py (keys "Business Name",
"Address", "Phone", "WhatsApp Link", "Website", "Email", "Google Maps Link",
"Rating", "Reviews") plus the optional "Search Query" key added by
`scrape_bulk_searches`. -/
structure Lead where
  name : String
  address : String
  phone : String
  whatsapp : String
  website : String
  email : String
  mapsLink : String
  rating : String
  reviews : String
  searchQuery : Option String := none
deriving DecidableEq, Repr, Inhabited

/-- `re.sub(r'[^\d+]', '', phone)` from `create_whatsapp_link`: keep only
decimal digits and `+`. -/
def cleanPhoneChars (phone : String) : String :=
  String.mk (phone.toList.filter fun c => c.isDigit || c == '+')

/-- Embedding of `create_whatsapp_link` (google_maps_scraper.py:56-63):
empty phone yields `""`; otherwise strip non-digit/plus characters, and
return `"https://wa.me/" + cleaned` only when the cleaned string is
non-empty, else `""`. -/
def create_whatsapp_link (phone : String) : String :=
  if phone = "" then ""
  else
    let clean_phone := cleanPhoneChars phone
    if clean_phone ≠ "" then "https://wa.me/" ++ clean_phone else ""

/-- Python `s.startswith(p)`: `p`'s characters are a prefix of `s`'s. -/
def strStartsWith (s p : String) : Bool :=
  p.toList.isPrefixOf s.toList

/-- The website selector loop of `extract_business_details`
(google_maps_scraper.py:164-175).  Each entry of the list is one selector
attempt: `none` when `safe_find_element` found no element, `some h` when an
element was found whose `href` attribute is `h` (the empty string standing
for a missing/falsy attribute).  The first href that is non-empty and does
not start with `"https://www.google.com"` is stored; otherwise the field
stays `""`. -/
def websiteFromHrefs : List (Option String) → String
  | [] => ""
  | none :: rest => websiteFromHrefs rest
  | some href :: rest =>
    if href ≠ "" ∧ ¬ strStartsWith href "https://www.google.com" then href
    else websiteFromHrefs rest

/-- Characters following the first `"://"` of a URL (empty if none). -/
def afterScheme : List Char → List Char
  | ':' :: '/' :: '/' :: rest => rest
  | _ :: rest => afterScheme rest
  | [] => []

/-- Host of a URL: the text after the first `"://"`, up to the next `/`.
Used only to state the specification's "host equals the mapping service's
own domain" property; not part of the source code. -/
def urlHost (url : String) : String :=
  String.mk ((afterScheme url.toList).takeWhile fun c => c ≠ '/')

/-- Python `s.lower()` (over the ASCII range the scraped fields use). -/
def pyLower (s : String) : String :=
  String.mk (s.toList.map Char.toLower)

/-- Leading and trailing whitespace removed from a character list. -/
def listTrim (cs : List Char) : List Char :=
  ((cs.dropWhile Char.isWhitespace).reverse.dropWhile Char.isWhitespace).reverse

/-- Python `s.strip()`: leading and trailing whitespace removed. -/
def pyStrip (s : String) : String :=
  String.mk (listTrim s.toList)

/-- Deduplication key of `deduplicate_leads`
(google_maps_scraper.py:456-457): lowercased, whitespace-trimmed
(name, address) pair. -/
def dedupKey (l : Lead) : String × String :=
  (pyStrip (pyLower l.name), pyStrip (pyLower l.address))

/-- The loop body of `deduplicate_leads` (google_maps_scraper.py:452-463),
with the `seen` set made explicit as a list of keys: a lead is kept when its
name-key is non-empty and its key has not been seen; its key is then added
to `seen`. -/
def dedupAux : List Lead → List (String × String) → List Lead
  | [], _ => []
  | l :: rest, seen =>
    if (dedupKey l).1 ≠ "" ∧ dedupKey l ∉ seen then
      l :: dedupAux rest (dedupKey l :: seen)
    else
      dedupAux rest seen

/-- Embedding of `deduplicate_leads` (google_maps_scraper.py:442-463). -/
def deduplicate_leads (leads : List Lead) : List Lead :=
  dedupAux leads []

/-- Value of a digit string, most significant first. -/
def digitsToNat (cs : List Char) : ℕ :=
  cs.foldl (fun n c => 10 * n + (c.toNat - '0'.toNat)) 0

/-- Unsigned decimal literal over ℚ: `"123"`, `"1.5"`, `".5"`, `"5."`;
rejects the empty string, a bare `"."`, a second `'.'`, and any non-digit
character. -/
def parseDecimalCore? (cs : List Char) : Option ℚ :=
  let intPart := cs.takeWhile fun c => c ≠ '.'
  let rest := cs.dropWhile fun c => c ≠ '.'
  match rest with
  | [] =>
    if cs ≠ [] ∧ cs.all Char.isDigit then some (mkRat (Int.ofNat (digitsToNat cs)) 1) else none
  | _ :: frac =>
    if intPart.all Char.isDigit ∧ frac.all Char.isDigit ∧
        (intPart ≠ [] ∨ frac ≠ []) then
      some (mkRat (Int.ofNat (digitsToNat intPart * Nat.pow 10 frac.length + digitsToNat frac))
        (Nat.pow 10 frac.length))
    else none

/-- Optional leading sign in front of a decimal literal. -/
def parseSigned? : List Char → Option ℚ
  | '+' :: rest => parseDecimalCore? rest
  | '-' :: rest => (parseDecimalCore? rest).map Neg.neg
  | cs => parseDecimalCore? cs

/-- Model of Python `float(s)` over ℚ, restricted to sign/digits/decimal-point
literal forms with surrounding whitespace allowed (the exponent, underscore,
inf and nan forms of the full grammar are not modelled; no rating string
takes them).  `none` models the `ValueError` branch. -/
def pythonFloat? (s : String) : Option ℚ :=
  parseSigned? (listTrim s.toList)

/-- Embedding of the local `parse_rating` of `filter_leads`
(google_maps_scraper.py:517-521): replace every `','` by `'.'`, parse as a
decimal, and fall back to 0 on failure. -/
def parse_rating (val : String) : ℚ :=
  match pythonFloat? (String.mk (val.toList.map fun c => if c = ',' then '.' else c)) with
  | some q => q
  | none => 0

/-- One presence predicate of `filter_leads`: `none` leaves the table alone,
`some true` keeps rows with a non-empty field, `some false` keeps rows with
an empty field (pandas `.str.len() > 0` / `== 0`). -/
def presenceFilter (get : Lead → String) : Option Bool → List Lead → List Lead
  | none, df => df
  | some true, df => df.filter fun l => (get l).length > 0
  | some false, df => df.filter fun l => (get l).length = 0

/-- Embedding of `filter_leads` (google_maps_scraper.py:466-525).  The
DataFrame is a `List Lead`; `hasEmailCol` / `hasRatingCol` model the
`'Email' in filtered_df.columns` / `'Rating' in filtered_df.columns`
checks.  The empty table is returned unchanged before any predicate is
applied. -/
def filter_leads (hasEmailCol hasRatingCol : Bool)
    (has_phone has_website has_email has_whatsapp : Option Bool)
    (min_rating : Option ℚ) (df : List Lead) : List Lead :=
  if df = [] then df
  else
    let df1 := presenceFilter (fun l => l.phone) has_phone df
    let df2 := presenceFilter (fun l => l.website) has_website df1
    let df3 := if hasEmailCol then presenceFilter (fun l => l.email) has_email df2 else df2
    let df4 := presenceFilter (fun l => l.whatsapp) has_whatsapp df3
    match min_rating with
    | some mr =>
      if hasRatingCol then df4.filter fun l => decide (mr ≤ parse_rating l.rating) else df4
    | none => df4

/-- One result card of the listing, as the card-iteration loop of
`scrape_google_maps` observes it: whether the `a.hfpxzc` link element is
present, the value of its `aria-label` attribute (`""` for a missing/falsy
attribute, matching `get_attribute(...) or ""`), whether the scroll+click
interaction succeeds, and the Lead that `extract_business_details` returns
once the detail view is open (a per-card exception after the click is
modelled by `clickOk = false`, since either way the card is skipped with
`continue`). -/
structure Card where
  hasLink : Bool
  ariaLabel : String
  clickOk : Bool
  extracted : Lead
deriving DecidableEq, Repr, Inhabited

/-- google_maps_scraper.py:341-342: fall back to the card-level display name
when the detail view yielded no name. -/
def mergeCardName (business_name : String) (lead : Lead) : Lead :=
  if lead.name = "" ∧ business_name ≠ "" then { lead with name := business_name } else lead

/-- The card-iteration loop of `scrape_google_maps`
(google_maps_scraper.py:309-372), with the `processed_names` set as a list
of names and the accumulated `leads` list made explicit.  A card with no
link element, a display name already processed, or a failed click is
skipped; otherwise the extracted lead (with the card-name fallback merged
in) is recorded exactly when its name is non-empty. -/
def processCards : List Card → List String → List Lead → List Lead
  | [], _, leads => leads
  | card :: rest, processed, leads =>
    if ¬ card.hasLink then processCards rest processed leads
    else if card.ariaLabel ∈ processed then processCards rest processed leads
    else if ¬ card.clickOk then processCards rest processed leads
    else if (mergeCardName card.ariaLabel card.extracted).name ≠ "" then
      processCards rest ((mergeCardName card.ariaLabel card.extracted).name :: processed)
        (leads ++ [mergeCardName card.ariaLabel card.extracted])
    else processCards rest processed leads

/-- Embedding of the lead-collection phase of `scrape_google_maps`
(google_maps_scraper.py:230-390): the environment presents a sequence of
cards, of which the first `min(card count, max_results)` are iterated
(google_maps_scraper.py:302, 309) starting from an empty processed set and
an empty lead list. -/
def scrape_google_maps (cards : List Card) (max_results : ℕ) : List Lead :=
  processCards (cards.take (min cards.length max_results)) [] []

/-- One (keyword, city, country) input of `scrape_bulk_searches`. -/
structure SearchTriple where
  keyword : String
  city : String
  country : String
deriving DecidableEq, Repr

/-- The `'Search Query'` tag string of google_maps_scraper.py:427. -/
def searchQueryString (s : SearchTriple) : String :=
  s.keyword ++ " in " ++ s.city ++ ", " ++ s.country

/-- google_maps_scraper.py:426-427: tag a lead with its origin query. -/
def tagLead (s : SearchTriple) (l : Lead) : Lead :=
  { l with searchQuery := some (searchQueryString s) }

/-- Embedding of `scrape_bulk_searches` (google_maps_scraper.py:393-439).
`runSearch` is the environment: what `scrape_google_maps` does for each
triple, either returning leads (`Except.ok`) or raising (`Except.error`).
A raising sub-run is caught by the `except` clause and skipped; a
successful sub-run's leads are tagged and appended. -/
def scrape_bulk_searches (runSearch : SearchTriple → Except String (List Lead)) :
    List SearchTriple → List Lead
  | [] => []
  | s :: rest =>
    match runSearch s with
    | .ok leads => leads.map (tagLead s) ++ scrape_bulk_searches runSearch rest
    | .error _ => scrape_bulk_searches runSearch rest

/-- The scroll loop of `scroll_results_panel` (google_maps_scraper.py:201-227).
`items t` is the `div.Nv2PK` element list the DOM reports at the t-th query;
`last_count`/`scroll_attempts` are the loop variables (initially 0, with
`max_scroll_attempts = 20`); `t` counts DOM queries.  The Python `while`
loop has no structural bound, so the recursion carries explicit fuel and
returns `none` when the fuel is exhausted before the loop exits; `some t`
means the loop exited with `t` queries made, so the final
`safe_find_elements` call observes `items t`. -/
def scrollAux (items : ℕ → List ℕ) (max_results : ℕ) :
    ℕ → ℕ → ℕ → ℕ → Option ℕ
  | 0, _, _, _ => none
  | fuel + 1, last_count, scroll_attempts, t =>
    if 20 ≤ scroll_attempts then some t
    else
      if max_results ≤ (items t).length then some (t + 1)
      else if (items t).length = last_count then
        scrollAux items max_results fuel last_count (scroll_attempts + 1) (t + 1)
      else
        scrollAux items max_results fuel (items t).length 0 (t + 1)

/-- Embedding of `scroll_results_panel` (google_maps_scraper.py:201-227):
run the loop from `last_count = 0`, `scroll_attempts = 0` and return the
item list the final query observes (or `none` if `fuel` iterations did not
suffice). -/
def scroll_results_panel (items : ℕ → List ℕ) (max_results fuel : ℕ) : Option (List ℕ) :=
  (scrollAux items max_results fuel 0 0 0).map items

/-- A persisted row of the `search_history` table (database.py:26-36). -/
structure SearchRecord where
  id : ℕ
  keyword : String
  city : String
  country : String
  leads_count : ℕ
  leads_data : List Lead
deriving DecidableEq, Repr

/-- The persistence store: the `search_history` rows plus the next value of
the auto-incremented primary key. -/
structure DBState where
  records : List SearchRecord
  nextId : ℕ
deriving DecidableEq, Repr

/-- Embedding of `save_search` (database.py:50-87).  `db_available` models
the module-level availability flag; `insertOk` models whether the INSERT
statement executes and commits (the `except` branch rolls the session back).
On the commit path the function body reaches `return None`
(database.py:80), so the saved row's id is returned on no path. -/
def save_search (db_available insertOk : Bool) (keyword city country : String)
    (leads : List Lead) (db : DBState) : Option ℤ × DBState :=
  if ¬ db_available then (none, db)
  else if insertOk then
    (none,
     { records := db.records ++
         [⟨db.nextId, keyword, city, country, leads.length, leads⟩],
       nextId := db.nextId + 1 })
  else (none, db)

/-- A lead with only name and address populated, for concrete instances. -/
def sampleLead (n a : String) : Lead :=
  { name := n, address := a, phone := "", whatsapp := "", website := "",
    email := "", mapsLink := "", rating := "", reviews := "" }

/-- A lead whose only populated field is its rating text. -/
def ratedLead (r : String) : Lead :=
  { sampleLead "Biz" "Addr" with rating := r }

/-- C1, counterexample: on the non-empty phone string "abc" (no digit and no
plus character) `create_whatsapp_link` returns the empty string, so the
derived link is NOT empty iff the phone field is empty, and it does not
equal `"https://wa.me/"` followed by the cleaned phone. -/
theorem create_whatsapp_link_iff_cex :
    ¬ (create_whatsapp_link "abc" = "" ↔ ("abc" : String) = "") := by
  decide

/-- C1, amended: the derived link is empty iff the phone stripped to digits
and plus characters is empty; when that stripped string is non-empty the
link equals `"https://wa.me/"` followed by it. -/
theorem create_whatsapp_link_eq (phone : String) :
    create_whatsapp_link phone =
      if cleanPhoneChars phone = "" then "" else "https://wa.me/" ++ cleanPhoneChars phone := by
  unfold create_whatsapp_link
  by_cases h : phone = ""
  · subst h
    have hclean : cleanPhoneChars "" = "" := rfl
    simp [hclean]
  · by_cases h2 : cleanPhoneChars phone = "" <;> simp [h, h2]

/-- C3, counterexample: the website selector chain stores the href
`"https://google.com/maps"` (the mapping service under a bare-domain
spelling) because the code only rejects hrefs starting with the literal
`"https://www.google.com"`, yet its host is exactly the service's own
domain. -/
theorem websiteFromHrefs_service_domain_cex :
    websiteFromHrefs [some "https://google.com/maps"] = "https://google.com/maps" ∧
    urlHost "https://google.com/maps" = "google.com" := by
  constructor <;> decide

/-- C3, amended: the Website field is either empty or an href that does not
start with the literal prefix `"https://www.google.com"`; hrefs of the
mapping service under another scheme or host spelling are not rejected. -/
theorem websiteFromHrefs_never_google_prefixed (hrefs : List (Option String)) :
    websiteFromHrefs hrefs = "" ∨
      (¬ strStartsWith (websiteFromHrefs hrefs) "https://www.google.com" ∧
        websiteFromHrefs hrefs ≠ "") := by
  induction hrefs with
  | nil => left; rfl
  | cons h rest ih =>
    match h with
    | none => simpa [websiteFromHrefs] using ih
    | some href =>
      by_cases hc : href ≠ "" ∧ ¬ strStartsWith href "https://www.google.com"
      · right
        rw [websiteFromHrefs, if_pos hc]
        exact ⟨hc.2, hc.1⟩
      · rw [websiteFromHrefs, if_neg hc]
        exact ih

/-- C2: `save_search` never returns the id of the saved row — on every path,
including the one where the store is available and the INSERT commits (and
the row is appended to the table), the returned value is `None`
(database.py:80), contradicting the docstring "Returns: ID of the saved
search" and the `-> int` annotation. -/
theorem save_search_returns_none (available insertOk : Bool)
    (keyword city country : String) (leads : List Lead) (db : DBState) :
    (save_search available insertOk keyword city country leads db).1 = none ∧
    (save_search true true keyword city country leads db).2.records =
      db.records ++ [⟨db.nextId, keyword, city, country, leads.length, leads⟩] := by
  constructor
  · unfold save_search
    rcases available <;> rcases insertOk <;> simp
  · rfl

/-- C9: a failing sub-run is swallowed: `scrape_bulk_searches` equals the
concatenation, over the input triples in order, of the tagged leads of each
non-raising sub-run (raising sub-runs contribute nothing); in particular
with two triples where the first yields `leads` and the second raises,
exactly the first sub-run's tagged leads are returned. -/
theorem scrape_bulk_searches_spec
    (runSearch : SearchTriple → Except String (List Lead))
    (searches : List SearchTriple) :
    scrape_bulk_searches runSearch searches =
      (searches.map fun s =>
        match runSearch s with
        | .ok leads => leads.map (tagLead s)
        | .error _ => []).flatten ∧
    (∀ (s1 s2 : SearchTriple) (leads : List Lead) (e : String),
      runSearch s1 = .ok leads → runSearch s2 = .error e →
      scrape_bulk_searches runSearch [s1, s2] = leads.map (tagLead s1)) := by
  constructor
  · induction searches with
    | nil => rfl
    | cons s rest ih =>
      rw [scrape_bulk_searches]
      rcases hr : runSearch s with e | leads <;> simp [hr, ih]
  · intro s1 s2 leads e h1 h2
    simp [scrape_bulk_searches, h1, h2]

/-- C9, witness: a concrete two-triple batch where the first sub-run yields
five leads and the second raises returns exactly the five tagged leads. -/
theorem scrape_bulk_searches_spec_witness :
    scrape_bulk_searches
      (fun s => if s.keyword = "cafe" then
          .ok (List.replicate 5 (sampleLead "B" "A"))
        else .error "boom")
      [⟨"cafe", "Leeds", "UK"⟩, ⟨"bar", "York", "UK"⟩] =
      (List.replicate 5 (sampleLead "B" "A")).map (tagLead ⟨"cafe", "Leeds", "UK"⟩) :=
  (scrape_bulk_searches_spec
      (fun s => if s.keyword = "cafe" then
          .ok (List.replicate 5 (sampleLead "B" "A"))
        else .error "boom") []).2
    ⟨"cafe", "Leeds", "UK"⟩ ⟨"bar", "York", "UK"⟩
    (List.replicate 5 (sampleLead "B" "A")) "boom" (by rfl) (by rfl)

/-- C10: `filter_leads` on the empty table returns it unchanged for every
combination of column flags and predicate arguments — the empty-table check
short-circuits before any predicate is applied. -/
theorem filter_leads_empty (hasEmailCol hasRatingCol : Bool)
    (has_phone has_website has_email has_whatsapp : Option Bool)
    (min_rating : Option ℚ) :
    filter_leads hasEmailCol hasRatingCol has_phone has_website has_email
      has_whatsapp min_rating [] = [] := by
  rfl

theorem dedupAux_sublist (leads : List Lead) (seen : List (String × String)) :
    (dedupAux leads seen).Sublist leads := by
  induction leads generalizing seen with
  | nil => simp [dedupAux]
  | cons l rest ih =>
    rw [dedupAux]
    split
    · exact (ih (dedupKey l :: seen)).cons₂ l
    · exact (ih seen).cons l

theorem dedupAux_mem (leads : List Lead) (seen : List (String × String)) :
    ∀ l ∈ dedupAux leads seen, (dedupKey l).1 ≠ "" ∧ dedupKey l ∉ seen := by
  induction leads generalizing seen with
  | nil => simp [dedupAux]
  | cons l rest ih =>
    rw [dedupAux]
    split
    · rename_i hcond
      intro x hx
      rcases List.mem_cons.mp hx with hx | hx
      · subst hx; exact hcond
      · have h := ih (dedupKey l :: seen) x hx
        exact ⟨h.1, fun hmem => h.2 (List.mem_cons_of_mem _ hmem)⟩
    · exact ih seen

theorem dedupAux_pairwise (leads : List Lead) (seen : List (String × String)) :
    (dedupAux leads seen).Pairwise fun a b => dedupKey a ≠ dedupKey b := by
  induction leads generalizing seen with
  | nil => simp [dedupAux]
  | cons l rest ih =>
    rw [dedupAux]
    split
    · refine List.Pairwise.cons ?_ (ih (dedupKey l :: seen))
      intro x hx heq
      exact (dedupAux_mem rest (dedupKey l :: seen) x hx).2 (heq ▸ List.mem_cons_self _ _)
    · exact ih seen

theorem dedupAux_of_clean (M : List Lead) (seen : List (String × String))
    (h1 : ∀ l ∈ M, (dedupKey l).1 ≠ "" ∧ dedupKey l ∉ seen)
    (h2 : M.Pairwise fun a b => dedupKey a ≠ dedupKey b) :
    dedupAux M seen = M := by
  induction M generalizing seen with
  | nil => rfl
  | cons l rest ih =>
    rw [dedupAux, if_pos (h1 l (List.mem_cons_self _ _))]
    congr 1
    refine ih (dedupKey l :: seen) ?_ h2.of_cons
    intro x hx
    refine ⟨(h1 x (List.mem_cons_of_mem _ hx)).1, ?_⟩
    intro hmem
    rcases List.mem_cons.mp hmem with heq | hmem
    · exact (List.pairwise_cons.mp h2).1 x hx heq.symm
    · exact (h1 x (List.mem_cons_of_mem _ hx)).2 hmem

theorem dedupAux_covers (leads : List Lead) (seen : List (String × String)) :
    ∀ x ∈ leads, (dedupKey x).1 ≠ "" →
      dedupKey x ∈ seen ∨ ∃ y ∈ dedupAux leads seen, dedupKey y = dedupKey x := by
  induction leads generalizing seen with
  | nil => simp
  | cons l rest ih =>
    intro x hx hkey
    rw [dedupAux]
    rcases List.mem_cons.mp hx with hx | hx
    · subst hx
      by_cases hcond : (dedupKey x).1 ≠ "" ∧ dedupKey x ∉ seen
      · rw [if_pos hcond]
        exact Or.inr ⟨x, List.mem_cons_self _ _, rfl⟩
      · left
        rcases not_and_or.mp hcond with h | h
        · exact absurd hkey h
        · exact not_not.mp h
    · by_cases hcond : (dedupKey l).1 ≠ "" ∧ dedupKey l ∉ seen
      · rw [if_pos hcond]
        rcases ih (dedupKey l :: seen) x hx hkey with hmem | ⟨y, hy, hkeq⟩
        · rcases List.mem_cons.mp hmem with heq | hmem
          · exact Or.inr ⟨l, List.mem_cons_self _ _, heq.symm⟩
          · exact Or.inl hmem
        · exact Or.inr ⟨y, List.mem_cons_of_mem _ hy, hkeq⟩
      · rw [if_neg hcond]
        exact ih seen x hx hkey

/-- C5: post-processing deduplication is idempotent; its output is a
subsequence of the input; no two output leads share a lowercased, trimmed
(name, address) key; and every input lead with a non-empty name key is
represented in the output by a lead with the same key (so two leads collide
exactly when their keys are equal, first occurrence winning). -/
theorem deduplicate_leads_spec (L : List Lead) :
    deduplicate_leads (deduplicate_leads L) = deduplicate_leads L ∧
    (deduplicate_leads L).Sublist L ∧
    ((deduplicate_leads L).Pairwise fun a b => dedupKey a ≠ dedupKey b) ∧
    (∀ x ∈ L, (dedupKey x).1 ≠ "" →
      ∃ y ∈ deduplicate_leads L, dedupKey y = dedupKey x) := by
  refine ⟨?_, dedupAux_sublist L [], dedupAux_pairwise L [], ?_⟩
  · unfold deduplicate_leads
    refine dedupAux_of_clean _ _ ?_ (dedupAux_pairwise L [])
    intro l hl
    exact ⟨(dedupAux_mem L [] l hl).1, List.not_mem_nil _⟩
  · intro x hx hkey
    rcases dedupAux_covers L [] x hx hkey with hmem | h
    · exact absurd hmem (List.not_mem_nil _)
    · exact h

/-- C5, witness: the specification's example pair
(" Joes Cafe ", "1 High St") / ("joes cafe", "1 high st") shares one key,
so the second lead is represented in the deduplicated output. -/
theorem deduplicate_leads_spec_witness :
    ∃ y ∈ deduplicate_leads
        [sampleLead " Joes Cafe " "1 High St", sampleLead "joes cafe" "1 high st"],
      dedupKey y = dedupKey (sampleLead "joes cafe" "1 high st") :=
  (deduplicate_leads_spec
      [sampleLead " Joes Cafe " "1 High St", sampleLead "joes cafe" "1 high st"]).2.2.2
    (sampleLead "joes cafe" "1 high st") (by decide) (by decide)

/-- C6: with a Rating column present and only the minimum-rating predicate
active, `filter_leads` keeps exactly the leads whose rating text parses (with
`','` accepted as decimal separator, unparseable text counting as 0) to at
least the requested minimum; the text "4,5" parses to 9/2 so such a lead is
retained at minimum 4, and "N/A" parses to 0 so such a lead is excluded at
every positive minimum. -/
theorem filter_leads_min_rating (df : List Lead) (mr : ℚ) :
    filter_leads true true none none none none (some mr) df =
      df.filter (fun l => decide (mr ≤ parse_rating l.rating)) ∧
    parse_rating "4,5" = 9 / 2 ∧
    parse_rating "N/A" = 0 ∧
    ratedLead "4,5" ∈ filter_leads true true none none none none (some 4) [ratedLead "4,5"] ∧
    (∀ m : ℚ, 0 < m →
      filter_leads true true none none none none (some m) [ratedLead "N/A"] = []) := by
  have h45 : parse_rating "4,5" = mkRat 9 2 := by rfl
  have hNA : parse_rating "N/A" = mkRat 0 1 := by rfl
  have hparse45 : parse_rating "4,5" = 9 / 2 := by
    rw [h45, Rat.mkRat_eq_div]; norm_num
  have hparseNA : parse_rating "N/A" = 0 := by
    rw [hNA, Rat.mkRat_eq_div]; norm_num
  have heq : ∀ (df : List Lead) (m : ℚ),
      filter_leads true true none none none none (some m) df =
        df.filter (fun l => decide (m ≤ parse_rating l.rating)) := by
    intro df m
    by_cases h : df = []
    · subst h; rfl
    · simp [filter_leads, h, presenceFilter]
  refine ⟨heq df mr, hparse45, hparseNA, ?_, ?_⟩
  · rw [heq]
    simp [ratedLead, hparse45]
    norm_num
  · intro m hm
    rw [heq]
    simp [ratedLead, hparseNA]
    linarith

/-- C6, witness: a lead with rating text "N/A" is excluded at the concrete
positive minimum rating 1. -/
theorem filter_leads_min_rating_witness :
    filter_leads true true none none none none (some 1) [ratedLead "N/A"] = [] :=
  (filter_leads_min_rating [] 0).2.2.2.2 1 (by norm_num)

theorem processCards_names_nonempty (cards : List Card) (processed : List String)
    (leads : List Lead) (h : ∀ l ∈ leads, l.name ≠ "") :
    ∀ l ∈ processCards cards processed leads, l.name ≠ "" := by
  induction cards generalizing processed leads with
  | nil => exact h
  | cons card rest ih =>
    rw [processCards]
    split
    · exact ih processed leads h
    · split
      · exact ih processed leads h
      · split
        · exact ih processed leads h
        · split
          · rename_i hname
            refine ih _ _ ?_
            intro l hl
            rcases List.mem_append.mp hl with hl | hl
            · exact h l hl
            · rw [List.mem_singleton.mp hl]
              exact hname
          · exact ih processed leads h

/-- C7: every lead in the list the orchestrator returns has a non-empty
name (a lead is recorded only after the non-empty-name check at
google_maps_scraper.py:344), and every lead `deduplicate_leads` emits has a
name that is non-empty even after lowercasing and trimming. -/
theorem leads_always_named (cards : List Card) (max_results : ℕ) (L : List Lead) :
    (∀ l ∈ scrape_google_maps cards max_results, l.name ≠ "") ∧
    (∀ l ∈ deduplicate_leads L, pyStrip (pyLower l.name) ≠ "") := by
  constructor
  · exact processCards_names_nonempty _ [] [] (by simp)
  · intro l hl
    exact (dedupAux_mem L [] l hl).1

/-- C7, witness: a concrete one-card run yields a lead, and that lead's name
is non-empty. -/
theorem leads_always_named_witness :
    (sampleLead "B" "a1").name ≠ "" :=
  (leads_always_named [⟨true, "A", true, sampleLead "B" "a1"⟩] 5 []).1
    (sampleLead "B" "a1") (by decide)

/-- The name a card's lead finally carries: the extracted name, or the
card-level display name when extraction yielded none. -/
def finalName (c : Card) : String :=
  (mergeCardName c.ariaLabel c.extracted).name

/-- C4, counterexample: two cards whose display names ("A", "C") differ from
the names their detail views yield (both "B") produce two leads with the
same business name — the pre-open skip tests the card's display name
against the set of previously extracted names, and nothing re-checks the
extracted name before recording. -/
theorem scrape_google_maps_duplicate_names_cex :
    (scrape_google_maps [⟨true, "A", true, sampleLead "B" "a1"⟩,
        ⟨true, "C", true, sampleLead "B" "a2"⟩] 20).map Lead.name = ["B", "B"] ∧
    ¬ ((scrape_google_maps [⟨true, "A", true, sampleLead "B" "a1"⟩,
        ⟨true, "C", true, sampleLead "B" "a2"⟩] 20).Pairwise fun a b => a.name ≠ b.name) := by
  constructor
  · rfl
  · decide

theorem processCards_pairwise_names (cards : List Card) (processed : List String)
    (leads : List Lead)
    (hcards : ∀ c ∈ cards, c.ariaLabel = finalName c)
    (hsub : ∀ l ∈ leads, l.name ∈ processed)
    (hpw : leads.Pairwise fun a b => a.name ≠ b.name) :
    (processCards cards processed leads).Pairwise fun a b => a.name ≠ b.name := by
  induction cards generalizing processed leads with
  | nil => exact hpw
  | cons card rest ih =>
    have hrest : ∀ c ∈ rest, c.ariaLabel = finalName c :=
      fun c hc => hcards c (List.mem_cons_of_mem _ hc)
    rw [processCards]
    split
    · exact ih processed leads hrest hsub hpw
    · split
      · exact ih processed leads hrest hsub hpw
      · split
        · exact ih processed leads hrest hsub hpw
        · split
          · rename_i hnl hmem hclick hname
            refine ih _ _ hrest ?_ ?_
            · intro l hl
              rcases List.mem_append.mp hl with hl | hl
              · exact List.mem_cons_of_mem _ (hsub l hl)
              · rw [List.mem_singleton.mp hl]
                exact List.mem_cons_self _ _
            · rw [List.pairwise_append]
              refine ⟨hpw, List.pairwise_singleton _ _, ?_⟩
              intro a ha b hb
              rw [List.mem_singleton.mp hb]
              intro heq
              apply hmem
              rw [hcards card (List.mem_cons_self _ _), finalName, ← heq]
              exact hsub a ha
          · exact ih processed leads hrest hsub hpw

/-- C4, amended: a card whose display name is already in the processed set
is skipped outright — the run's outcome does not depend on that card's
detail view at all; and the returned lead list has pairwise-distinct names
provided every card's display name agrees with the name its lead finally
carries.  When a card's display name differs from the extracted name, two
returned leads can share a name (see the counterexample). -/
theorem scrape_google_maps_dedup_by_display_name :
    (∀ (card : Card) (rest : List Card) (processed : List String) (leads : List Lead),
      card.ariaLabel ∈ processed →
      processCards (card :: rest) processed leads = processCards rest processed leads) ∧
    ∀ (cards : List Card) (max_results : ℕ),
      (∀ c ∈ cards, c.ariaLabel = finalName c) →
      (scrape_google_maps cards max_results).Pairwise fun a b => a.name ≠ b.name := by
  constructor
  · intro card rest processed leads hmem
    rw [processCards]
    by_cases hl : card.hasLink
    · simp [hl, hmem]
    · simp [hl]
  · intro cards max_results hcards
    refine processCards_pairwise_names _ [] [] ?_ (by simp) (by simp)
    intro c hc
    exact hcards c (List.mem_of_mem_take hc)

/-- C4, witness: with two cards sharing the display name "B" that their
detail views also yield, the second is skipped and the returned names are
pairwise distinct. -/
theorem scrape_google_maps_dedup_by_display_name_witness :
    (scrape_google_maps [⟨true, "B", true, sampleLead "B" "a1"⟩,
        ⟨true, "B", true, sampleLead "B" "a2"⟩] 20).Pairwise
      fun a b => a.name ≠ b.name :=
  scrape_google_maps_dedup_by_display_name.2
    [⟨true, "B", true, sampleLead "B" "a1"⟩, ⟨true, "B", true, sampleLead "B" "a2"⟩]
    20 (by decide)

theorem scrollAux_spec (items : ℕ → List ℕ) (max_results B : ℕ)
    (hmono : ∀ s t, s ≤ t → (items s).length ≤ (items t).length)
    (hbound : ∀ t, (items t).length ≤ B) :
    ∀ (fuel last att t : ℕ),
      last ≤ (items t).length →
      att ≤ 20 →
      att ≤ t →
      (∀ i < att, (items (t - 1 - i)).length = last) →
      (0 < att → last < max_results) →
      (B - last) * 21 + (21 - att) ≤ fuel →
      ∃ T, scrollAux items max_results fuel last att t = some T ∧ t ≤ T ∧
        ((0 < T ∧ max_results ≤ (items (T - 1)).length) ∨
         (20 ≤ T ∧ (items (T - 1)).length < max_results ∧
          ∀ i < 20, (items (T - 1 - i)).length = (items (T - 1)).length)) := by
  intro fuel
  induction fuel with
  | zero =>
    intro last att t _ hatt _ _ _ hfuel
    omega
  | succ fuel ih =>
    intro last att t hlast hatt hatt_t hstalls hlt_max hfuel
    rw [scrollAux]
    by_cases hstop : 20 ≤ att
    · rw [if_pos hstop]
      have hatt20 : att = 20 := by omega
      have h0 : (items (t - 1)).length = last := by
        have := hstalls 0 (by omega)
        simpa using this
      refine ⟨t, rfl, le_refl t, Or.inr ⟨by omega, ?_, ?_⟩⟩
      · rw [h0]; exact hlt_max (by omega)
      · intro i hi
        rw [h0, hstalls i (by omega)]
    · rw [if_neg hstop]
      by_cases htarget : max_results ≤ (items t).length
      · rw [if_pos htarget]
        exact ⟨t + 1, rfl, by omega, Or.inl ⟨by omega, by simpa using htarget⟩⟩
      · rw [if_neg htarget]
        by_cases hsame : (items t).length = last
        · rw [if_pos hsame]
          obtain ⟨T, hT, hTle, hreason⟩ :=
            ih last (att + 1) (t + 1)
              (hsame ▸ hmono t (t + 1) (by omega))
              (by omega) (by omega)
              (by
                intro i hi
                match i with
                | 0 => simpa using hsame
                | j + 1 =>
                  have hj : t + 1 - 1 - (j + 1) = t - 1 - j := by omega
                  rw [hj]
                  exact hstalls j (by omega))
              (fun _ => by omega)
              (by omega)
          exact ⟨T, hT, by omega, hreason⟩
        · rw [if_neg hsame]
          have hgrow : last < (items t).length := lt_of_le_of_ne hlast (fun h => hsame h.symm)
          have hB : (items t).length ≤ B := hbound t
          obtain ⟨T, hT, hTle, hreason⟩ :=
            ih (items t).length 0 (t + 1)
              (hmono t (t + 1) (by omega))
              (by omega) (by omega)
              (fun i hi => absurd hi (Nat.not_lt_zero i))
              (fun h => absurd h (by omega))
              (by omega)
          exact ⟨T, hT, by omega, hreason⟩

/-- C8: in every environment where the reported item count is non-decreasing
and bounded by `B`, the scroll loop terminates within `(B + 1) * 21`
iterations and `scroll_results_panel` returns the item list the final DOM
query observes (possibly shorter than `max_results`); moreover at the exit
point either the last polled count had reached `max_results`, or the loop
had seen 20 consecutive polls with no growth (the stall counter being reset
on every growth), all below the target. -/
theorem scroll_results_panel_terminates (items : ℕ → List ℕ) (max_results B : ℕ)
    (hmono : ∀ s t, s ≤ t → (items s).length ≤ (items t).length)
    (hbound : ∀ t, (items t).length ≤ B) :
    ∃ T, scrollAux items max_results ((B + 1) * 21) 0 0 0 = some T ∧
      scroll_results_panel items max_results ((B + 1) * 21) = some (items T) ∧
      ((0 < T ∧ max_results ≤ (items (T - 1)).length) ∨
       (20 ≤ T ∧ (items (T - 1)).length < max_results ∧
        ∀ i < 20, (items (T - 1 - i)).length = (items (T - 1)).length)) := by
  obtain ⟨T, hT, _, hreason⟩ :=
    scrollAux_spec items max_results B hmono hbound ((B + 1) * 21) 0 0 0
      (Nat.zero_le _) (by omega) (by omega)
      (fun i hi => absurd hi (Nat.not_lt_zero i))
      (fun h => absurd h (by omega))
      (by omega)
  refine ⟨T, hT, ?_, hreason⟩
  rw [scroll_results_panel, hT]
  rfl

/-- C8, witness: in the concrete environment whose item list is
`List.range (min t 3)` at query `t` (counts 0,1,2,3,3,3,... bounded by 3)
with target 10, the loop terminates and stops by the stall rule. -/
theorem scroll_results_panel_terminates_witness :
    ∃ T, scrollAux (fun t => List.range (min t 3)) 10 ((3 + 1) * 21) 0 0 0 = some T ∧
      scroll_results_panel (fun t => List.range (min t 3)) 10 ((3 + 1) * 21) =
        some (List.range (min T 3)) ∧
      ((0 < T ∧ 10 ≤ (List.range (min (T - 1) 3)).length) ∨
       (20 ≤ T ∧ (List.range (min (T - 1) 3)).length < 10 ∧
        ∀ i < 20, (List.range (min (T - 1 - i) 3)).length =
          (List.range (min (T - 1) 3)).length)) :=
  scroll_results_panel_terminates (fun t => List.range (min t 3)) 10 3
    (fun s t hst => by simp only [List.length_range]; omega)
    (fun t => by simp only [List.length_range]; omega)

end LeadScrapeMap
